import Mathlib

/-!
Verification of the orez CDC / recovery subsystem against its source.

Each definition below is a shallow embedding of a function of the repository
(`src/recovery.ts`, `src/pglite-manager.ts`, `src/index.ts`); the file/line
of the embedded code is given on every definition.  Components whose
implementation file is not part of the source tree (the connection router
`pg-proxy.ts`, the change tracker) are modelled from the specification and
are marked `Modelled from the spec:` in their doc comment.
-/

/- ### Substring matching (JavaScript `String.prototype.includes`) -/

/-- Decide whether `needle` occurs as a contiguous run inside `hay`
(the semantics of JavaScript `hay.includes(needle)`). -/
def occursIn (needle : List Char) : List Char → Bool
  | [] => needle.isEmpty
  | c :: t => needle.isPrefixOf (c :: t) || occursIn needle t

/-- `strIncludes s sub` embeds the JavaScript expression `s.includes(sub)`. -/
def strIncludes (s sub : String) : Bool :=
  occursIn sub.data s.data

/-- `strStartsWith s pre` embeds `s.startsWith(pre)` structurally on the
character lists. -/
def strStartsWith (s pre : String) : Bool :=
  pre.data.isPrefixOf s.data

/-- `strEndsWith s suf` embeds `s.endsWith(suf)` (and SQL `LIKE '%suf'`)
structurally on the character lists. -/
def strEndsWith (s suf : String) : Bool :=
  suf.data.isSuffixOf s.data

/- ### C3: the corruption classifier, from src/recovery.ts lines 29-40 -/

/-- Embeds `hasCdcCorruptionSignature(details)` of `src/recovery.ts:29-40`:
an empty string is falsy and returns false; otherwise the two signature
disjuncts are tested in order. -/
def hasCdcCorruptionSignature (details : String) : Bool :=
  if details.isEmpty then false
  else if strIncludes details "changeLog_pkey" && strIncludes details "duplicate key" then
    true
  else if strIncludes details "23505" && strIncludes details "watermark" then
    true
  else false

/-- The duplicate-watermark corruption signature as the spec describes it:
a nonempty error text showing a duplicate-key violation on the change log's
primary key, or the duplicate-key SQLSTATE together with a watermark
message.  Written from the spec's words, for comparison with the code. -/
def specDuplicateWatermarkSignature (details : String) : Prop :=
  details ≠ "" ∧
    ((strIncludes details "changeLog_pkey" = true ∧
      strIncludes details "duplicate key" = true) ∨
     (strIncludes details "23505" = true ∧
      strIncludes details "watermark" = true))

/- ### Postgres-instance state used by the recovery and reset procedures -/

/-- One table of a PGlite instance, as the recovery code sees it through
`pg_tables`: a schema name, a table name, and its rows.  Row contents are
opaque to recovery, so the row type is a parameter. -/
structure PgTable (Row : Type) where
  schemaname : String
  tablename : String
  rows : List Row
deriving DecidableEq

/-- The primary `postgres` PGlite instance: its tables plus the value of the
`_orez._zero_watermark` sequence (the watermark allocator's durable
counter). -/
structure PgDb (Row : Type) where
  tables : List (PgTable Row)
  watermarkSeq : Nat
deriving DecidableEq

/-- Does `tb` live at schema `s`, table name `t`?  (the WHERE clause of the
statements recovery issues). -/
def tblMatch (s t : String) (tb : PgTable Row) : Bool :=
  tb.schemaname == s && tb.tablename == t

/-- `TRUNCATE s.t`: empty the rows of that table, touch nothing else. -/
def truncTables (s t : String) (l : List (PgTable Row)) : List (PgTable Row) :=
  l.map fun tb => if tblMatch s t tb then { tb with rows := [] } else tb

/-- Look a table's rows up by schema and name (`none` when absent). -/
def findRows (l : List (PgTable Row)) (s t : String) : Option (List Row) :=
  (l.find? (tblMatch s t)).map PgTable.rows

/-- The table names of the shard-schema query of `src/recovery.ts:99-104`:
`tablename IN ('clients', 'replicas', 'mutations')`. -/
def shardTableName (t : String) : Bool :=
  t == "clients" || t == "replicas" || t == "mutations"

/-- The schemas the shard-schema query of `src/recovery.ts:99-104` excludes:
`schemaname NOT IN ('pg_catalog','information_schema','pg_toast','public','_orez')
AND schemaname NOT LIKE 'pg_%'`. -/
def shardSchemaExcluded (s : String) : Bool :=
  s == "pg_catalog" || s == "information_schema" || s == "pg_toast" ||
    s == "public" || s == "_orez" || strStartsWith s "pg_"

/-- A schema selected by the shard-bookkeeping query of
`src/recovery.ts:99-104`: it holds one of the shard table names and is not
excluded. -/
def isShardSchema (l : List (PgTable Row)) (s : String) : Bool :=
  !shardSchemaExcluded s &&
    l.any fun tb => tb.schemaname == s && shardTableName tb.tablename

/-- The `DROP SCHEMA ... CASCADE` loop of `src/recovery.ts:105-107`: every
table of a schema the query selected is removed. -/
def dropShardSchemas (l : List (PgTable Row)) : List (PgTable Row) :=
  l.filter fun tb => !isShardSchema l tb.schemaname

/-- The whole local state the recovery/reset procedures act on: the primary
`postgres` instance, the auxiliary CVR and CDB instances (their table
contents; recreation yields an empty instance), the set of files of the
replica cache present in the data directory, and whether the zero-cache
consumer process is running. -/
structure OrezState (Row : Type) where
  postgres : PgDb Row
  cvrTables : List (PgTable Row)
  cdbTables : List (PgTable Row)
  replicaFiles : List String
  zeroCacheRunning : Bool
deriving DecidableEq

/-- The replica file and its side-files as `src/recovery.ts:69-74` deletes
them (suffixes `''`, `-shm`, `-wal`, `-wal2`). -/
def recoveryReplicaNames : List String :=
  ["zero-replica.db", "zero-replica.db-shm", "zero-replica.db-wal",
   "zero-replica.db-wal2"]

/-- The replica file and its side-files as `cleanupStaleReplica` deletes
them (`src/index.ts`, suffixes `''`, `-wal`, `-shm`, `-wal2`). -/
def cleanupReplicaNames : List String :=
  ["zero-replica.db", "zero-replica.db-wal", "zero-replica.db-shm",
   "zero-replica.db-wal2"]

/-- Embeds `recoverFromCdcCorruption` of `src/recovery.ts:46-110`:
kill the zero-cache process; close and delete the CVR/CDB instances and
recreate them empty; delete the replica file with its side-files; then on
the postgres instance `TRUNCATE _orez._zero_changes`, `TRUNCATE
_orez._zero_replication_slots`, `ALTER SEQUENCE _orez._zero_watermark
RESTART WITH 1`; finally drop the stale shard bookkeeping schemas the
`pg_tables` query selects. -/
def recoverFromCdcCorruption (st : OrezState Row) : OrezState Row :=
  let tables1 := truncTables "_orez" "_zero_changes" st.postgres.tables
  let tables2 := truncTables "_orez" "_zero_replication_slots" tables1
  let tables3 := dropShardSchemas tables2
  { postgres := { tables := tables3, watermarkSeq := 1 },
    cvrTables := [],
    cdbTables := [],
    replicaFiles := st.replicaFiles.filter fun f => !recoveryReplicaNames.contains f,
    zeroCacheRunning := false }

/- ### C6: resetZeroState, from src/index.ts (resetZeroState / cleanupStaleReplica) -/

/-- The two modes of `resetZeroState` in `src/index.ts`. -/
inductive ResetMode
  | cacheOnly
  | full
deriving DecidableEq

/-- Embeds `resetZeroState(mode)` of `src/index.ts`: stop zero-cache; in
`full` mode close, delete and recreate the CVR/CDB instances; always run
`cleanupStaleReplica` (delete the replica file and its side-files); in
`full` mode re-run the on-db-ready hook (an opaque effect `hook` on the
postgres tables, only when one is configured) and re-install change
tracking; finally restart zero-cache.  The transient `orez.resetting`
marker file, written and removed inside the same call, is not modelled. -/
def resetZeroState (hook : List (PgTable Row) → List (PgTable Row))
    (hasOnDbReady : Bool) (mode : ResetMode) (st : OrezState Row) : OrezState Row :=
  match mode with
  | .full =>
      { postgres :=
          { tables := if hasOnDbReady then hook st.postgres.tables else st.postgres.tables,
            watermarkSeq := st.postgres.watermarkSeq },
        cvrTables := [],
        cdbTables := [],
        replicaFiles := st.replicaFiles.filter fun f => !cleanupReplicaNames.contains f,
        zeroCacheRunning := true }
  | .cacheOnly =>
      { postgres := st.postgres,
        cvrTables := st.cvrTables,
        cdbTables := st.cdbTables,
        replicaFiles := st.replicaFiles.filter fun f => !cleanupReplicaNames.contains f,
        zeroCacheRunning := true }

/- ### C2: the watermark allocator and the change log -/

/-- The CDC state of the primary instance: the `_orez._zero_watermark`
sequence (its next value; a fresh data directory starts it at 1) and the
`_orez._zero_changes` change log, `(watermark, payload)` pairs in commit
order. -/
structure CdcState (Row : Type) where
  nextWatermark : Nat
  changeLog : List (Nat × Row)
deriving DecidableEq

/-- The operations that touch the allocator: a committed transaction of some
rows, or the corruption recovery of `src/recovery.ts:93-96`. -/
inductive CdcOp (Row : Type)
  | commit (rows : List Row)
  | recover

/-- One step of the CDC state.
`commit rows`: Modelled from the spec: the change tracker's hooks (the
tracker implementation is not among the sources) append one ChangeRecord
per mutated row inside the committing transaction, each taking the next
value of the watermark sequence, so a commit of `k` rows appends watermarks
`nextWatermark, …, nextWatermark + k - 1` and advances the sequence by `k`.
`recover`: embeds `src/recovery.ts:94-96` — `TRUNCATE _orez._zero_changes`
and `ALTER SEQUENCE _orez._zero_watermark RESTART WITH 1`. -/
def cdcStep (st : CdcState Row) : CdcOp Row → CdcState Row
  | .commit rows =>
      { nextWatermark := st.nextWatermark + rows.length,
        changeLog := st.changeLog ++ (List.range' st.nextWatermark rows.length).zip rows }
  | .recover => { nextWatermark := 1, changeLog := [] }

/-- A fresh data directory: sequence at 1, empty change log. -/
def cdcInit : CdcState Row :=
  { nextWatermark := 1, changeLog := [] }

/-- The CDC state after a sequence of commits and recoveries, from a fresh
data directory. -/
def cdcRun (ops : List (CdcOp Row)) : CdcState Row :=
  ops.foldl cdcStep cdcInit

/-- The invariant tying the log to the allocator: watermarks in the log are
strictly increasing in commit order and all below the sequence's next
value. -/
def cdcInv (st : CdcState Row) : Prop :=
  List.Pairwise (· < ·) (st.changeLog.map Prod.fst) ∧
    ∀ w ∈ st.changeLog.map Prod.fst, w < st.nextWatermark

/- ### C4: the session router's reference-counted rollback -/

/-- Modelled from the spec: the state the Session Router keeps per logical
database — the count of open client connections (`activeConns` in
`pg-proxy.ts`, whose implementation file is not among the sources) and
whether the underlying single-session engine currently has an open
transaction. -/
structure ProxyState where
  activeConns : String → Nat
  txOpen : String → Bool

/-- Modelled from the spec: a new client connection to database `db` bumps
that database's reference count. -/
def openConn (db : String) (st : ProxyState) : ProxyState :=
  { st with
    activeConns := fun d => if d = db then st.activeConns d + 1 else st.activeConns d }

/-- Modelled from the spec: socket close decrements the database's reference
count (floored at 0, as `Math.max(0, n - 1)` does), and only when the count
reaches zero issues the defensive `ROLLBACK` + session reset, ending any
transaction left open on the shared engine session. -/
def closeConn (db : String) (st : ProxyState) : ProxyState :=
  let remaining := st.activeConns db - 1
  let conns := fun d => if d = db then remaining else st.activeConns d
  if remaining = 0 then
    { activeConns := conns, txOpen := fun d => if d = db then false else st.txOpen d }
  else
    { activeConns := conns, txOpen := st.txOpen }

/-- A concrete router state: two connections open to `postgres`, one of
them having left a transaction open on the shared session. -/
def proxyExample : ProxyState :=
  { activeConns := fun d => if d = "postgres" then 2 else 0,
    txOpen := fun d => if d = "postgres" then true else false }

/- ### C5: the startup sequence of startZeroLite (src/index.ts) -/

/-- The externally visible steps `startZeroLite` performs, in source order
(`src/index.ts`). -/
inductive StartupStep
  | findPorts
  | createLogStores
  | resolveSqliteModeStep
  | mkDataDir
  | writePidFile
  | createPGliteInstances
  | runMigrations
  | installChangeTracking
  | startPgProxy
  | seedIfNeeded
  | runOnDbReadyHook
  | reinstallChangeTracking
  | cleanupStaleReplica
  | startZeroCache
  | waitForZeroCache
  | runOnHealthyHook
  | cleanCdcState
deriving DecidableEq

/-- The step sequence of `startZeroLite` (`src/index.ts`), as the code
performs it: ports, log stores, sqlite-mode resolution, data directory and
pid file, the three PGlite instances, migrations, change tracking, the TCP
proxy, seeding, the optional on-db-ready hook (followed by re-installing
change tracking), stale-replica cleanup, then — unless skipped — zero-cache
start and its health wait, and the optional on-healthy hook. -/
def startZeroLiteSteps (skipZeroCache hasOnDbReady hasOnHealthy : Bool) :
    List StartupStep :=
  [.findPorts, .createLogStores, .resolveSqliteModeStep, .mkDataDir, .writePidFile,
   .createPGliteInstances, .runMigrations, .installChangeTracking, .startPgProxy,
   .seedIfNeeded] ++
  (if hasOnDbReady then [.runOnDbReadyHook, .reinstallChangeTracking] else []) ++
  [.cleanupStaleReplica] ++
  (if skipZeroCache then [] else [.startZeroCache, .waitForZeroCache]) ++
  (if hasOnHealthy then [.runOnHealthyHook] else [])

/-- Embeds the body of `cleanCdcStateOnStartup` of `src/recovery.ts:119-140`:
on the CDB instance, select every namespace matching `LIKE '%/cdc'` and drop
it; failures are swallowed (non-fatal).  The function is exported but — see
the theorem below — `startZeroLite` never invokes it. -/
def cleanCdcSchemas (namespaces : List String) : List String :=
  namespaces.filter fun n => !strEndsWith n "/cdc"

/- ### C7: layout migration, from src/pglite-manager.ts lines 132-148 -/

/-- The data directory's contents as a partial map from directory name to an
opaque content tag. -/
abbrev FsDirs := String → Option Nat

/-- Embeds the migration step at the head of `createPGliteInstances`
(`src/pglite-manager.ts:135-141`): when the legacy `pgdata` directory
exists and `pgdata-postgres` does not, `pgdata` is renamed to
`pgdata-postgres`; otherwise nothing happens. -/
def migrateLegacyLayout (dirs : FsDirs) : FsDirs :=
  if (dirs "pgdata").isSome && !(dirs "pgdata-postgres").isSome then
    fun n =>
      if n = "pgdata" then none
      else if n = "pgdata-postgres" then dirs "pgdata"
      else dirs n
  else dirs

/-- `mkdirSync(dataPath, recursive)` at the head of `createInstance`
(`src/pglite-manager.ts:76-77`): create the directory if absent (with fresh
content), keep it untouched if present. -/
def mkdirDir (name : String) (fresh : Nat) (dirs : FsDirs) : FsDirs :=
  fun n => if n = name then some ((dirs name).getD fresh) else dirs n

/-- The directory-level effect of `createPGliteInstances`
(`src/pglite-manager.ts:132-148`): first the legacy-layout migration, then
the three instance directories are created (if absent) when each instance
is opened. -/
def createPGliteInstancesDirs (fresh : Nat) (dirs : FsDirs) : FsDirs :=
  mkdirDir "pgdata-cdb" fresh
    (mkdirDir "pgdata-cvr" fresh
      (mkdirDir "pgdata-postgres" fresh (migrateLegacyLayout dirs)))

/-- A concrete legacy layout: only `pgdata` exists, with content tag 7. -/
def legacyDirsExample : FsDirs :=
  fun n => if n = "pgdata" then some 7 else none

/- ### C8: publication creation, from src/pglite-manager.ts lines 151-164 -/

/-- The publication name `createPGliteInstances` uses:
`process.env.ZERO_APP_PUBLICATIONS || 'zero_pub'` — an unset or empty
environment value falls back to the default. -/
def pubNameOf (env : Option String) : String :=
  match env with
  | none => "zero_pub"
  | some s => if s.isEmpty then "zero_pub" else s

/-- Embeds the publication step of `createPGliteInstances`
(`src/pglite-manager.ts:153-163`): count the publications carrying the
name; when the count is zero, `CREATE PUBLICATION` with that name. -/
def ensurePublication (env : Option String) (pubs : List String) : List String :=
  if pubs.count (pubNameOf env) = 0 then pubs ++ [pubNameOf env] else pubs

/- ### C9: startZeroCache failure behaviour, from src/index.ts -/

/-- Embeds the fallible prefix of `startZeroCache` (`src/index.ts`):
`resolvePackage('@rocicorp/zero')` returning nothing throws
`zero-cache not found`; a missing `cli.js` next to the package entry throws
`zero-cache cli.js not found`; a failing sqlite-mode application throws;
otherwise the subprocess is spawned. -/
def startZeroCacheModel (zeroEntry : Option String) (cliExists applySqliteOk : Bool) :
    Except String Unit :=
  match zeroEntry with
  | none => Except.error "zero-cache not found. install @rocicorp/zero"
  | some _ =>
      if !cliExists then
        Except.error "zero-cache cli.js not found. install @rocicorp/zero"
      else if !applySqliteOk then
        Except.error "cannot apply sqlite mode"
      else Except.ok ()

/-- The outcome of `startZeroLite` as far as zero-cache startup is concerned
(`src/index.ts`): with `skipZeroCache` nothing is attempted; otherwise the
`startZeroCache` exception propagates out uncaught, and when the spawn
succeeds a failing health poll (`waitForZeroCache`) only logs
`health check timed out, continuing anyway` — the `healthOk` flag does not
influence the outcome. -/
def startZeroLiteOutcome (skipZeroCache : Bool) (zeroEntry : Option String)
    (cliExists applySqliteOk _healthOk : Bool) : Except String Unit :=
  if skipZeroCache then Except.ok ()
  else
    match startZeroCacheModel zeroEntry cliExists applySqliteOk with
    | Except.error e => Except.error e
    | Except.ok _ => Except.ok ()

/-- Modelled from the spec: the CLI bootstrap around `startZeroLite` (the
`citty` `runMain` wrapper, an external collaborator) exits the process
non-zero when startup throws and zero otherwise — "process exits non-zero
on unrecoverable startup failure". -/
def processExitCode (r : Except String Unit) : Nat :=
  match r with
  | Except.error _ => 1
  | Except.ok _ => 0

/- ### C10: stale-lock cleaning, from src/pglite-manager.ts lines 19-62 -/

/-- What reading `postmaster.pid` can yield: the read throws
(`unreadable`), or it succeeds and `parseInt` of the first line gives a
truthy pid (`content (some pid)`, pid positive) or a falsy value
(`content none`: `NaN` or `0`). -/
inductive PidFileRead
  | unreadable
  | content (parsedPid : Option Nat)
deriving DecidableEq

/-- One instance's data directory as `cleanStaleLocks` sees it: the
`postmaster.pid` file (absent, unreadable, or its parsed pid), the other
directory entries, and which pids belong to running processes
(`isProcessRunning`, i.e. `process.kill(pid, 0)` succeeding). -/
structure LockDir where
  pidFile : Option PidFileRead
  files : List String
  alive : Nat → Bool

/-- Embeds `cleanStaleLocks` of `src/pglite-manager.ts:31-62`: no pid file
or an unreadable one returns false and touches nothing; a parsed pid whose
process is still running returns false and touches nothing; otherwise the
pid file and every `.s.PGSQL.*` entry are deleted and the function returns
true (the deleted list always contains at least the pid file). -/
def cleanStaleLocks (d : LockDir) : Bool × LockDir :=
  match d.pidFile with
  | none => (false, d)
  | some PidFileRead.unreadable => (false, d)
  | some (PidFileRead.content parsed) =>
      match parsed with
      | some p =>
          if d.alive p then (false, d)
          else
            (true,
             { d with
               pidFile := none,
               files := d.files.filter fun f => !strStartsWith f ".s.PGSQL." })
      | none =>
          (true,
           { d with
             pidFile := none,
             files := d.files.filter fun f => !strStartsWith f ".s.PGSQL." })

/-- A concrete data directory for `cleanStaleLocks`: a pid file recording
pid 42, a socket-lock entry and a data entry, with only pid 1 running. -/
def lockDirExample : LockDir :=
  { pidFile := some (PidFileRead.content (some 42)),
    files := [".s.PGSQL.5432", "base"],
    alive := fun p => p == 1 }

/- ### Helper lemmas on table lookups -/

theorem tblMatch_truncIf (s t s0 t0 : String) (tb : PgTable Row) :
    tblMatch s t (if tblMatch s0 t0 tb then { tb with rows := [] } else tb)
      = tblMatch s t tb := by
  cases hc : tblMatch s0 t0 tb <;> simp [hc, tblMatch]

theorem findRows_truncTables_ne {s0 t0 s t : String} (h : s ≠ s0 ∨ t ≠ t0)
    (l : List (PgTable Row)) :
    findRows (truncTables s0 t0 l) s t = findRows l s t := by
  induction l with
  | nil => rfl
  | cons tb l ih =>
    by_cases hm : tblMatch s t tb = true
    · have hne : tblMatch s0 t0 tb = false := by
        cases hx : tblMatch s0 t0 tb
        · rfl
        · exfalso
          have h1 : tb.schemaname = s ∧ tb.tablename = t := by
            simpa [tblMatch, Bool.and_eq_true, beq_iff_eq] using hm
          have h2 : tb.schemaname = s0 ∧ tb.tablename = t0 := by
            simpa [tblMatch, Bool.and_eq_true, beq_iff_eq] using hx
          rcases h with hss | htt
          · exact hss (by rw [← h1.1, h2.1])
          · exact htt (by rw [← h1.2, h2.2])
      simp [truncTables, findRows, hne, List.find?_cons_of_pos, hm]
    · have hm2 : tblMatch s t (if tblMatch s0 t0 tb then { tb with rows := [] } else tb)
          = false := by
        rw [tblMatch_truncIf]
        simpa using hm
      simp only [truncTables, List.map_cons, findRows] at ih ⊢
      rw [List.find?_cons_of_neg _ (by simp [hm2]), List.find?_cons_of_neg _ (by simp [hm])]
      exact ih

theorem findRows_truncTables_self (s t : String) (l : List (PgTable Row)) :
    findRows (truncTables s t l) s t
      = (findRows l s t).map (fun _ => ([] : List Row)) := by
  induction l with
  | nil => rfl
  | cons tb l ih =>
    by_cases hm : tblMatch s t tb = true
    · have hm2 : tblMatch s t ({ tb with rows := [] } : PgTable Row) = true := by
        simpa [tblMatch] using hm
      simp [truncTables, findRows, hm, hm2, List.find?_cons_of_pos]
    · have hm2 : tblMatch s t (if tblMatch s t tb then { tb with rows := [] } else tb)
          = false := by
        rw [tblMatch_truncIf]
        simpa using hm
      simp only [truncTables, List.map_cons, findRows] at ih ⊢
      rw [List.find?_cons_of_neg _ (by simp [hm2]), List.find?_cons_of_neg _ (by simp [hm])]
      exact ih

theorem findRows_filter_keep (p : String → Bool) {s : String} (hp : p s = false)
    (t : String) (l : List (PgTable Row)) :
    findRows (l.filter fun tb => !p tb.schemaname) s t = findRows l s t := by
  induction l with
  | nil => rfl
  | cons tb l ih =>
    by_cases hm : tblMatch s t tb = true
    · have hs : tb.schemaname = s := by
        have h1 : tb.schemaname = s ∧ tb.tablename = t := by
          simpa [tblMatch, Bool.and_eq_true, beq_iff_eq] using hm
        exact h1.1
      have hkeep : (!p tb.schemaname) = true := by rw [hs, hp]; rfl
      simp [List.filter_cons, hkeep, findRows, List.find?_cons_of_pos, hm]
    · by_cases hk : (!p tb.schemaname) = true
      · simp only [List.filter_cons, hk, if_true, findRows] at ih ⊢
        rw [List.find?_cons_of_neg _ (by simp [hm]), List.find?_cons_of_neg _ (by simp [hm])]
        exact ih
      · simp only [List.filter_cons, hk, if_false, Bool.false_eq_true, findRows] at ih ⊢
        rw [List.find?_cons_of_neg _ (by simp [hm])]
        exact ih

theorem isShardSchema_public (l : List (PgTable Row)) :
    isShardSchema l "public" = false := rfl

theorem isShardSchema_orez (l : List (PgTable Row)) :
    isShardSchema l "_orez" = false := rfl

/- ### Claim theorems -/

/-- C1: `recoverFromCdcCorruption` never inserts, updates or deletes a row
of a primary user table: every table of the `public` schema keeps exactly
its rows (and its presence), while the procedure only truncates
`_orez._zero_changes` and `_orez._zero_replication_slots`, restarts the
`_orez._zero_watermark` sequence at 1, recreates the CVR/CDB instances
empty, removes the replica cache file with its WAL side-files, and stops
the zero-cache process; the `public` and `_orez` schemas are never
dropped. -/
theorem recoverFromCdcCorruption_frame (Row : Type) (st : OrezState Row) (t : String) :
    findRows (recoverFromCdcCorruption st).postgres.tables "public" t
        = findRows st.postgres.tables "public" t
    ∧ findRows (recoverFromCdcCorruption st).postgres.tables "_orez" "_zero_changes"
        = (findRows st.postgres.tables "_orez" "_zero_changes").map
            (fun _ => ([] : List Row))
    ∧ findRows (recoverFromCdcCorruption st).postgres.tables "_orez"
          "_zero_replication_slots"
        = (findRows st.postgres.tables "_orez" "_zero_replication_slots").map
            (fun _ => ([] : List Row))
    ∧ (recoverFromCdcCorruption st).postgres.watermarkSeq = 1
    ∧ (recoverFromCdcCorruption st).cvrTables = []
    ∧ (recoverFromCdcCorruption st).cdbTables = []
    ∧ (recoverFromCdcCorruption st).replicaFiles
        = st.replicaFiles.filter (fun f => !recoveryReplicaNames.contains f)
    ∧ (recoverFromCdcCorruption st).zeroCacheRunning = false := by
  refine ⟨?_, ?_, ?_, rfl, rfl, rfl, rfl, rfl⟩
  · exact (findRows_filter_keep _ (isShardSchema_public _) t _).trans
      ((findRows_truncTables_ne (Or.inl (by decide)) _).trans
        (findRows_truncTables_ne (Or.inl (by decide)) _))
  · exact (findRows_filter_keep _ (isShardSchema_orez _) _ _).trans
      ((findRows_truncTables_ne (Or.inr (by decide)) _).trans
        (findRows_truncTables_self _ _ _))
  · exact (findRows_filter_keep _ (isShardSchema_orez _) _ _).trans
      ((findRows_truncTables_self _ _ _).trans
        (congrArg (Option.map fun _ => ([] : List Row))
          (findRows_truncTables_ne (Or.inr (by decide)) _)))

theorem cdcInv_init : cdcInv (cdcInit : CdcState Row) := by
  constructor
  · exact List.Pairwise.nil
  · intro w hw
    simp [cdcInit] at hw

theorem cdcInv_step (st : CdcState Row) (op : CdcOp Row) (h : cdcInv st) :
    cdcInv (cdcStep st op) := by
  cases op with
  | recover =>
      constructor
      · exact List.Pairwise.nil
      · intro w hw
        simp [cdcStep] at hw
  | commit rows =>
      obtain ⟨hpw, hbd⟩ := h
      have hzip : ((List.range' st.nextWatermark rows.length).zip rows).map Prod.fst
          = List.range' st.nextWatermark rows.length :=
        List.map_fst_zip _ _ (by simp)
      constructor
      · simp only [cdcStep, List.map_append, hzip]
        rw [List.pairwise_append]
        refine ⟨hpw, List.pairwise_lt_range' _ _, ?_⟩
        intro a ha b hb
        have h1 : a < st.nextWatermark := hbd a ha
        have h2 : st.nextWatermark ≤ b := by
          rw [List.mem_range'_1] at hb
          exact hb.1
        omega
      · intro w hw
        simp only [cdcStep, List.map_append, hzip, List.mem_append] at hw ⊢
        rcases hw with hw | hw
        · have := hbd w hw
          omega
        · rw [List.mem_range'_1] at hw
          omega

theorem cdcInv_run (ops : List (CdcOp Row)) :
    ∀ st : CdcState Row, cdcInv st → cdcInv (ops.foldl cdcStep st) := by
  induction ops with
  | nil => exact fun st h => h
  | cons op ops ih => exact fun st h => ih _ (cdcInv_step st op h)

/-- C2: the change log read back by a fresh stream from watermark 0 (the
whole log, in commit order) has strictly increasing watermarks with no
duplicates; every logged watermark lies strictly below the allocator's next
value, so the allocator never re-issues a value already in the log; and the
one reset path, the recovery of `src/recovery.ts:93-96`, truncates all
ChangeRecords while restarting the sequence at 1, so no watermark is reused
against surviving records. -/
theorem watermark_monotonicity (Row : Type) (ops : List (CdcOp Row)) :
    List.Pairwise (· < ·) ((cdcRun ops).changeLog.map Prod.fst)
    ∧ ((cdcRun ops).changeLog.map Prod.fst).Nodup
    ∧ ((cdcRun ops).changeLog.map Prod.fst).all
        (fun w => decide (w < (cdcRun ops).nextWatermark)) = true
    ∧ (cdcStep (cdcRun ops) CdcOp.recover).changeLog = []
    ∧ (cdcStep (cdcRun ops) CdcOp.recover).nextWatermark = 1 := by
  obtain ⟨hpw, hbd⟩ := cdcInv_run ops cdcInit cdcInv_init
  refine ⟨hpw, hpw.imp (fun hab => Nat.ne_of_lt hab), ?_, rfl, rfl⟩
  rw [List.all_eq_true]
  intro w hw
  simpa using hbd w hw

/-- C3: the classifier `hasCdcCorruptionSignature` answers true exactly on
the texts exhibiting the duplicate-watermark corruption signature — a
nonempty text containing the change-log primary-key duplicate-key wording,
or the duplicate-key SQLSTATE 23505 together with a watermark message — and
false on everything else, the empty string included; recognition is pure
signature matching on the error text. -/
theorem hasCdcCorruptionSignature_correct (d : String) :
    hasCdcCorruptionSignature d = true ↔ specDuplicateWatermarkSignature d := by
  unfold hasCdcCorruptionSignature specDuplicateWatermarkSignature
  by_cases he : d.isEmpty = true
  · have hd : d = "" := (String.isEmpty_iff d).mp he
    subst hd
    decide
  · have hne : d ≠ "" := fun hd => he ((String.isEmpty_iff d).mpr hd)
    rw [if_neg he]
    simp only [ne_eq, hne, not_false_eq_true, true_and]
    cases h1 : strIncludes d "changeLog_pkey" <;>
      cases h2 : strIncludes d "duplicate key" <;>
        cases h3 : strIncludes d "23505" <;>
          cases h4 : strIncludes d "watermark" <;> simp

/-- C4: reference-counted rollback safety of the session router — closing a
socket while another connection to the same logical database is still open
leaves the shared session's transaction state untouched (only the count
drops by one), and closing the last open connection issues the defensive
rollback, ending any transaction left open. -/
theorem refcounted_rollback_safety (st : ProxyState) (db : String) :
    (2 ≤ st.activeConns db →
       (closeConn db st).txOpen db = st.txOpen db
       ∧ (closeConn db st).activeConns db = st.activeConns db - 1)
    ∧ (st.activeConns db = 1 → (closeConn db st).txOpen db = false) := by
  constructor
  · intro h2
    have hne : st.activeConns db - 1 ≠ 0 := by omega
    simp [closeConn, hne]
  · intro h1
    have h0 : st.activeConns db - 1 = 0 := by
      omega
    simp [closeConn, h0]

theorem refcounted_rollback_safety_witness :
    2 ≤ proxyExample.activeConns "postgres"
    ∧ (closeConn "postgres" proxyExample).txOpen "postgres"
        = proxyExample.txOpen "postgres"
    ∧ (closeConn "postgres" (closeConn "postgres" proxyExample)).txOpen "postgres"
        = false := by
  refine ⟨by decide,
    ((refcounted_rollback_safety proxyExample "postgres").1 (by decide)).1, ?_⟩
  exact (refcounted_rollback_safety (closeConn "postgres" proxyExample) "postgres").2
    (by decide)

/-- C5: the startup sequence of `startZeroLite` never performs the
proactive CDC cleanup — `StartupStep.cleanCdcState` occurs in no
configuration of the step list, although zero-cache is started whenever it
is not skipped.  `cleanCdcStateOnStartup` of `src/recovery.ts:119-140` is
exported dead code: the claim's cleanup-before-consumer-start never runs. -/
theorem cleanCdcStateOnStartup_not_invoked (skipZeroCache hasOnDbReady hasOnHealthy : Bool) :
    StartupStep.cleanCdcState ∉ startZeroLiteSteps skipZeroCache hasOnDbReady hasOnHealthy
    ∧ StartupStep.startZeroCache ∈ startZeroLiteSteps false hasOnDbReady hasOnHealthy := by
  cases skipZeroCache <;> cases hasOnDbReady <;> cases hasOnHealthy <;>
    exact ⟨by decide, by decide⟩

/-- C6: the cache-only reset leaves the postgres instance — every table,
the change log, the watermark sequence, all schemas — and the CVR/CDB
instances untouched; it only removes the replica cache file with its
side-files and restarts the zero-cache process, whereas the full reset
recreates the CVR/CDB instances empty. -/
theorem resetZeroState_cacheOnly_frame (Row : Type)
    (hook : List (PgTable Row) → List (PgTable Row)) (hasOnDbReady : Bool)
    (st : OrezState Row) (s t : String) :
    (resetZeroState hook hasOnDbReady ResetMode.cacheOnly st).postgres = st.postgres
    ∧ findRows (resetZeroState hook hasOnDbReady ResetMode.cacheOnly st).postgres.tables s t
        = findRows st.postgres.tables s t
    ∧ (resetZeroState hook hasOnDbReady ResetMode.cacheOnly st).postgres.watermarkSeq
        = st.postgres.watermarkSeq
    ∧ (resetZeroState hook hasOnDbReady ResetMode.cacheOnly st).cvrTables = st.cvrTables
    ∧ (resetZeroState hook hasOnDbReady ResetMode.cacheOnly st).cdbTables = st.cdbTables
    ∧ (resetZeroState hook hasOnDbReady ResetMode.cacheOnly st).replicaFiles
        = st.replicaFiles.filter (fun f => !cleanupReplicaNames.contains f)
    ∧ (resetZeroState hook hasOnDbReady ResetMode.cacheOnly st).zeroCacheRunning = true
    ∧ (resetZeroState hook hasOnDbReady ResetMode.full st).cvrTables = []
    ∧ (resetZeroState hook hasOnDbReady ResetMode.full st).cdbTables = [] :=
  ⟨rfl, rfl, rfl, rfl, rfl, rfl, rfl, rfl, rfl⟩

/-- C7: on startup, a legacy layout (a `pgdata` directory present,
`pgdata-postgres` absent) is migrated by renaming `pgdata` to
`pgdata-postgres` before any instance directory is created or opened, so
the postgres instance opens on the old contents; when `pgdata-postgres`
already exists the migration step changes nothing. -/
theorem migrate_legacy_layout (dirs : FsDirs) (c fresh : Nat) :
    (dirs "pgdata" = some c → dirs "pgdata-postgres" = none →
       migrateLegacyLayout dirs "pgdata-postgres" = some c
       ∧ migrateLegacyLayout dirs "pgdata" = none
       ∧ createPGliteInstancesDirs fresh dirs "pgdata-postgres" = some c)
    ∧ (∀ c2, dirs "pgdata-postgres" = some c2 → migrateLegacyLayout dirs = dirs) := by
  constructor
  · intro h1 h2
    refine ⟨?_, ?_, ?_⟩
    · simp [migrateLegacyLayout, h1, h2]
    · simp [migrateLegacyLayout, h1, h2]
    · simp [createPGliteInstancesDirs, mkdirDir, migrateLegacyLayout, h1, h2]
  · intro c2 h
    simp [migrateLegacyLayout, h]

theorem migrate_legacy_layout_witness :
    legacyDirsExample "pgdata" = some 7
    ∧ legacyDirsExample "pgdata-postgres" = none
    ∧ migrateLegacyLayout legacyDirsExample "pgdata-postgres" = some 7
    ∧ createPGliteInstancesDirs 0 legacyDirsExample "pgdata-postgres" = some 7 := by
  have h := (migrate_legacy_layout legacyDirsExample 7 0).1 (by decide) (by decide)
  exact ⟨by decide, by decide, h.1, h.2.2⟩

/-- C8: `createPGliteInstances` creates the configured publication (the
`ZERO_APP_PUBLICATIONS` value, falling back to `zero_pub`) exactly when no
publication of that name exists: an absent name is created once, a present
name leaves the catalog unchanged, other publications are never touched,
and running the startup step twice equals running it once. -/
theorem ensurePublication_idempotent (env : Option String) (pubs : List String) :
    ((ensurePublication env pubs).count (pubNameOf env)
        = if pubs.count (pubNameOf env) = 0 then 1 else pubs.count (pubNameOf env))
    ∧ ensurePublication env (ensurePublication env pubs) = ensurePublication env pubs
    ∧ (pubs.count (pubNameOf env) ≠ 0 → ensurePublication env pubs = pubs)
    ∧ (∀ other, other ≠ pubNameOf env →
        (ensurePublication env pubs).count other = pubs.count other) := by
  by_cases h : pubs.count (pubNameOf env) = 0
  · have h1 : (pubs ++ [pubNameOf env]).count (pubNameOf env) = 1 := by
      simp [List.count_append, h]
    refine ⟨?_, ?_, fun hc => absurd h hc, ?_⟩
    · simp [ensurePublication, h, h1]
    · have h2 : (ensurePublication env pubs).count (pubNameOf env) = 1 := by
        simp [ensurePublication, h, h1]
      simp [ensurePublication, h, h2]
    · intro other hother
      have hne : (pubNameOf env == other) = false := by
        simp [beq_iff_eq]
        exact fun he => hother he.symm
      simp [ensurePublication, h, List.count_append, List.count_cons, hne]
  · refine ⟨?_, ?_, fun _ => ?_, ?_⟩
    · simp [ensurePublication, h]
    · simp [ensurePublication, h]
    · simp [ensurePublication, h]
    · intro other _
      simp [ensurePublication, h]

theorem ensurePublication_idempotent_witness :
    (([] : List String).count (pubNameOf none) = 0
       ∧ (ensurePublication none []).count (pubNameOf none) = 1)
    ∧ (["zero_pub"].count (pubNameOf none) ≠ 0
       ∧ ensurePublication none ["zero_pub"] = ["zero_pub"])
    ∧ ("todo" ≠ pubNameOf none
       ∧ (ensurePublication none ["todo"]).count "todo" = ["todo"].count "todo") := by
  refine ⟨⟨by decide, ?_⟩, ⟨by decide, ?_⟩, ⟨by decide, ?_⟩⟩
  · simpa using (ensurePublication_idempotent none []).1
  · exact (ensurePublication_idempotent none ["zero_pub"]).2.2.1 (by decide)
  · exact (ensurePublication_idempotent none ["todo"]).2.2.2 "todo" (by decide)

/-- C9: when the external consumer binary is missing — `@rocicorp/zero`
unresolvable or its `cli.js` absent — `startZeroCache` throws, the error
propagates uncaught out of `startZeroLite`, and the process exits non-zero;
with the binary present, a timed-out health poll (a recoverable condition)
is only logged and startup still completes with exit code zero. -/
theorem startZeroCache_missing_binary_fatal (zeroEntry : Option String)
    (cliExists applySqliteOk healthOk : Bool) :
    ((zeroEntry = none ∨ cliExists = false) →
       processExitCode
           (startZeroLiteOutcome false zeroEntry cliExists applySqliteOk healthOk) ≠ 0
       ∧ ∃ e, startZeroLiteOutcome false zeroEntry cliExists applySqliteOk healthOk
           = Except.error e)
    ∧ (∀ e, startZeroLiteOutcome false (some e) true true healthOk = Except.ok ()
        ∧ processExitCode (startZeroLiteOutcome false (some e) true true healthOk) = 0) := by
  constructor
  · intro h
    rcases h with h | h
    · subst h
      exact ⟨by simp [startZeroLiteOutcome, startZeroCacheModel, processExitCode], ⟨_, rfl⟩⟩
    · subst h
      cases zeroEntry with
      | none =>
          exact ⟨by simp [startZeroLiteOutcome, startZeroCacheModel, processExitCode],
            ⟨_, rfl⟩⟩
      | some s =>
          exact ⟨by simp [startZeroLiteOutcome, startZeroCacheModel, processExitCode],
            ⟨_, rfl⟩⟩
  · intro e
    exact ⟨rfl, rfl⟩

theorem startZeroCache_missing_binary_fatal_witness :
    ((none : Option String) = none ∨ false = false)
    ∧ processExitCode (startZeroLiteOutcome false none true true true) ≠ 0 := by
  exact ⟨Or.inl rfl,
    ((startZeroCache_missing_binary_fatal none true true true).1 (Or.inl rfl)).1⟩

/-- C10: `cleanStaleLocks` deletes `postmaster.pid` and the `.s.PGSQL.*`
socket locks exactly when the pid file is readable and records no
still-running pid: an absent or unreadable pid file, or a recorded pid
whose process is alive, returns false with the directory untouched — a
live instance's locks are never destroyed; a recorded pid whose process is
gone (or a file whose first line parses to no usable pid) deletes the lock
files and returns true. -/
theorem cleanStaleLocks_safety (d : LockDir) :
    (d.pidFile = none → cleanStaleLocks d = (false, d))
    ∧ (d.pidFile = some PidFileRead.unreadable → cleanStaleLocks d = (false, d))
    ∧ (∀ p, d.pidFile = some (PidFileRead.content (some p)) → d.alive p = true →
        cleanStaleLocks d = (false, d))
    ∧ (∀ p, d.pidFile = some (PidFileRead.content (some p)) → d.alive p = false →
        cleanStaleLocks d =
          (true,
           { d with
              pidFile := none,
              files := d.files.filter (fun f => !strStartsWith f ".s.PGSQL.") }))
    ∧ (d.pidFile = some (PidFileRead.content none) →
        cleanStaleLocks d =
          (true,
           { d with
              pidFile := none,
              files := d.files.filter (fun f => !strStartsWith f ".s.PGSQL.") })) := by
  refine ⟨?_, ?_, ?_, ?_, ?_⟩
  · intro h
    simp [cleanStaleLocks, h]
  · intro h
    simp [cleanStaleLocks, h]
  · intro p h ha
    simp [cleanStaleLocks, h, ha]
  · intro p h ha
    simp [cleanStaleLocks, h, ha]
  · intro h
    simp [cleanStaleLocks, h]

theorem cleanStaleLocks_safety_witness :
    lockDirExample.pidFile = some (PidFileRead.content (some 42))
    ∧ lockDirExample.alive 42 = false
    ∧ (cleanStaleLocks lockDirExample).1 = true
    ∧ (cleanStaleLocks lockDirExample).2.files = ["base"] := by
  have h := (cleanStaleLocks_safety lockDirExample).2.2.2.1 42 rfl rfl
  refine ⟨rfl, rfl, ?_, ?_⟩
  · rw [h]
  · rw [h]
    decide
